import Mathlib

/-!
Verification of the Rust HTTP server (message parser, connection dispatcher,
thread pool) against its natural-language specification.

Modelling conventions (shallow embedding of the Rust source):

* Rust byte streams and strings are modelled as `List Nat` (one `Nat` per byte).
  The `TcpStream` read side is the list of bytes the client sends, followed by
  end-of-stream; genuine network I/O failures are outside the model, so the
  only modelled I/O error is a short read against `read_exact`, plus the
  invalid-UTF-8 error that `read_line`/`lines` raise.
* `BufReader` consumption is modelled logically: every parsing function
  returns, next to its result, the suffix of the stream it has not consumed.
* Rust `String` values produced by lossy decoding are modelled by the UTF-8
  bytes of the decoded text (`utf8Lossy`), which is the identity on valid
  UTF-8 input and substitutes U+FFFD (bytes EF BF BD) per maximal subpart of
  an ill-formed sequence, as `String::from_utf8_lossy` does.
* `trim` / `split_whitespace` are modelled at the ASCII level (the whitespace
  bytes 9-13 and 32); all protocol-relevant text in the server is ASCII.
* The filesystem and CGI collaborators (`fs::read`, `fs::read_to_string`,
  `Command::new("python3")`) are external to the repository and are passed in
  as an abstract environment `Sys`.
* `HashMap<String, String>` is modelled as an association list with
  replace-on-insert semantics (`insertHeader`), which realises the
  "last occurrence wins" behaviour of `HashMap::insert`.
-/

namespace RustServer

/-- A byte string: one `Nat` (0..255) per byte. -/
abbrev Bytes := List Nat

/-- Bytes of an ASCII string literal. -/
def ascii (s : String) : Bytes := s.toList.map Char.toNat

/-- The bytes `\r\n`. -/
def crlf : Bytes := [13, 10]

/-- UTF-8 continuation byte (0x80..0xBF). -/
def isCont (b : Nat) : Bool := decide (128 ≤ b ∧ b ≤ 191)

/-- Allowed range for the first continuation byte after lead byte `b`
(0xE0, 0xED, 0xF0 and 0xF4 restrict it; all other leads allow 0x80..0xBF). -/
def cont1Range (b : Nat) : Nat × Nat :=
  if b = 224 then (160, 191)
  else if b = 237 then (128, 159)
  else if b = 240 then (144, 191)
  else if b = 244 then (128, 143)
  else (128, 191)

/-- Whether a byte sequence is well-formed UTF-8. Models the success condition
of `String::from_utf8` / the per-line UTF-8 validation of `BufRead::read_line`
and `BufRead::lines`. -/
def utf8Valid : Bytes → Bool
  | [] => true
  | b :: rest =>
    if b ≤ 127 then utf8Valid rest
    else if 194 ≤ b ∧ b ≤ 223 then
      match rest with
      | [] => false
      | b1 :: r => isCont b1 && utf8Valid r
    else if 224 ≤ b ∧ b ≤ 239 then
      match rest with
      | [] => false
      | b1 :: r =>
        decide ((cont1Range b).1 ≤ b1 ∧ b1 ≤ (cont1Range b).2) &&
          match r with
          | [] => false
          | b2 :: r2 => isCont b2 && utf8Valid r2
    else if 240 ≤ b ∧ b ≤ 244 then
      match rest with
      | [] => false
      | b1 :: r =>
        decide ((cont1Range b).1 ≤ b1 ∧ b1 ≤ (cont1Range b).2) &&
          match r with
          | [] => false
          | b2 :: r2 =>
            isCont b2 &&
              match r2 with
              | [] => false
              | b3 :: r3 => isCont b3 && utf8Valid r3
    else false

/-- UTF-8 encoding of U+FFFD, the replacement character. -/
def fffd : Bytes := [239, 191, 189]

/-- `String::from_utf8_lossy` followed by re-encoding: the identity on valid
UTF-8, with each maximal subpart of an ill-formed subsequence replaced by
U+FFFD (the WHATWG substitution the Rust standard library implements). -/
def utf8Lossy : Bytes → Bytes
  | [] => []
  | b :: rest =>
    if b ≤ 127 then b :: utf8Lossy rest
    else if 194 ≤ b ∧ b ≤ 223 then
      match rest with
      | [] => fffd
      | b1 :: r => if isCont b1 then b :: b1 :: utf8Lossy r else fffd ++ utf8Lossy (b1 :: r)
    else if 224 ≤ b ∧ b ≤ 239 then
      match rest with
      | [] => fffd
      | b1 :: r =>
        if decide ((cont1Range b).1 ≤ b1 ∧ b1 ≤ (cont1Range b).2) then
          match r with
          | [] => fffd
          | b2 :: r2 =>
            if isCont b2 then b :: b1 :: b2 :: utf8Lossy r2 else fffd ++ utf8Lossy (b2 :: r2)
        else fffd ++ utf8Lossy (b1 :: r)
    else if 240 ≤ b ∧ b ≤ 244 then
      match rest with
      | [] => fffd
      | b1 :: r =>
        if decide ((cont1Range b).1 ≤ b1 ∧ b1 ≤ (cont1Range b).2) then
          match r with
          | [] => fffd
          | b2 :: r2 =>
            if isCont b2 then
              match r2 with
              | [] => fffd
              | b3 :: r3 =>
                if isCont b3 then b :: b1 :: b2 :: b3 :: utf8Lossy r3
                else fffd ++ utf8Lossy (b3 :: r3)
            else fffd ++ utf8Lossy (b2 :: r2)
        else fffd ++ utf8Lossy (b1 :: r)
    else fffd ++ utf8Lossy rest

/-- ASCII whitespace, as used by `str::trim` / `str::split_whitespace`
on ASCII text: HT, LF, VT, FF, CR and space. -/
def isWs (b : Nat) : Bool := b == 32 || b == 9 || b == 10 || b == 11 || b == 12 || b == 13

/-- `str::trim` on ASCII text: strip leading and trailing whitespace. -/
def trimAscii (l : Bytes) : Bytes := ((l.dropWhile isWs).reverse.dropWhile isWs).reverse

/-- Worker for `splitWhitespace`: split at every whitespace byte, keeping
empty segments; `acc` is the current segment, reversed. -/
def splitWsGo : Bytes → Bytes → List Bytes
  | [], acc => [acc.reverse]
  | b :: rest, acc =>
    if isWs b then acc.reverse :: splitWsGo rest [] else splitWsGo rest (b :: acc)

/-- `str::split_whitespace` on ASCII text: maximal non-whitespace runs,
with no empty tokens. -/
def splitWhitespace (l : Bytes) : List Bytes := (splitWsGo l []).filter (fun t => !t.isEmpty)

/-- `BufRead::read_line`: the prefix of the stream up to and including the
first LF (or the whole stream if none), next to the unconsumed suffix. -/
def takeLine : Bytes → Bytes × Bytes
  | [] => ([], [])
  | b :: rest =>
    if b = 10 then ([10], rest)
    else
      let p := takeLine rest
      (b :: p.1, p.2)

/-- The trailing-newline stripping done by `BufRead::lines`: remove a final
LF, and then a final CR if one directly preceded the LF. -/
def stripNewline (l : Bytes) : Bytes :=
  if l.getLast? = some 10 then
    let l1 := l.dropLast
    if l1.getLast? = some 13 then l1.dropLast else l1
  else l

/-- `str::split_once(": ")`: split at the first occurrence of the
two-byte separator `0x3A 0x20`, or `none` if it does not occur. -/
def splitOnceHV : Bytes → Option (Bytes × Bytes)
  | [] => none
  | b :: rest =>
    if b = 58 ∧ rest.head? = some 32 then some ([], rest.tail)
    else (splitOnceHV rest).map (fun kv => (b :: kv.1, kv.2))

/-- Whether the separator `": "` occurs somewhere in the byte string
(so `splitOnceHV` succeeds). -/
def hasSep : Bytes → Bool
  | [] => false
  | b :: rest => (decide (b = 58 ∧ rest.head? = some 32)) || hasSep rest

/-- `u8::to_ascii_lowercase`. -/
def lowerB (b : Nat) : Nat := if 65 ≤ b ∧ b ≤ 90 then b + 32 else b

/-- `str::eq_ignore_ascii_case`. -/
def eqIgnoreCase (a b : Bytes) : Bool := a.map lowerB == b.map lowerB

/-- ASCII decimal digit. -/
def isDigitB (b : Nat) : Bool := decide (48 ≤ b ∧ b ≤ 57)

/-- `str::parse::<usize>()`: an optional leading `+`, then one or more
decimal digits, failing on anything else, on the empty string and on
overflow past `usize::MAX` (64-bit). -/
def parseUsize (s : Bytes) : Option Nat :=
  let t := match s with
    | 43 :: r => r
    | _ => s
  if t.isEmpty then none
  else if t.all isDigitB then
    let n := t.foldl (fun a b => a * 10 + (b - 48)) 0
    if n < 2 ^ 64 then some n else none
  else none

/-- `HashMap::insert`: replace the value at an existing key, else append
the new binding ("last occurrence wins" for duplicate header names). -/
def insertHeader (hs : List (Bytes × Bytes)) (k v : Bytes) : List (Bytes × Bytes) :=
  if hs.any (fun p => p.1 == k) then hs.map (fun p => if p.1 == k then (p.1, v) else p)
  else hs ++ [(k, v)]

/-- `HashMap::get`: exact-key lookup. -/
def getHeader (hs : List (Bytes × Bytes)) (k : Bytes) : Option Bytes :=
  (hs.find? (fun p => p.1 == k)).map (fun p => p.2)

/-- One iteration of the header loop body of `MessageParser::parse_request`
applied to a decoded line: if the line splits at `": "`, insert the header
and, when the key case-insensitively equals `Content-Length`, re-parse the
content length (`unwrap_or(0)`); otherwise the line is skipped. Returns the
updated header map and content length. -/
def headerStep (line : Bytes) (hs : List (Bytes × Bytes)) (cl : Nat) :
    List (Bytes × Bytes) × Nat :=
  match splitOnceHV line with
  | some kv =>
    (insertHeader hs kv.1 kv.2,
      if eqIgnoreCase kv.1 (ascii "Content-Length") then (parseUsize kv.2).getD 0 else cl)
  | none => (hs, cl)

/-- The `String`-keyed error of `MessageParser::parse_request`
(`Result<Request, String>`), as the three distinguishable error messages:
`"Invalid request line"`, `"Payload Too Large"`, and an I/O / encoding
error converted with `e.to_string()`. -/
inductive ParseError where
  | invalidRequestLine
  | payloadTooLarge
  | ioError
deriving DecidableEq

/-- The `Request` struct of `message_parser.rs`. -/
structure Request where
  method : Bytes
  path : Bytes
  headers : List (Bytes × Bytes)
  body : Bytes
deriving DecidableEq

/-- The header loop `for line in buf_reader.by_ref().lines() { ... }` of
`MessageParser::parse_request`, as a byte-level state machine: `acc` holds
the bytes of the current (incomplete) line in reverse. On each full line:
fail with the I/O error if it is not valid UTF-8 (as `lines` does), stop at
an empty line, otherwise apply `headerStep`. At end of stream the final
partial line, if any, is still yielded by `lines`, and then the loop ends.
Returns the header map and content length next to the unconsumed suffix. -/
def readHeaders : Bytes → Bytes → List (Bytes × Bytes) → Nat →
    Except ParseError (List (Bytes × Bytes) × Nat) × Bytes
  | [], acc, hs, cl =>
    if acc.isEmpty then (.ok (hs, cl), [])
    else
      let raw := acc.reverse
      if utf8Valid raw then
        let line := stripNewline raw
        if line.isEmpty then (.ok (hs, cl), [])
        else (.ok (headerStep line hs cl), [])
      else (.error .ioError, [])
  | b :: rest, acc, hs, cl =>
    if b = 10 then
      let raw := acc.reverse ++ [10]
      if utf8Valid raw then
        let line := stripNewline raw
        if line.isEmpty then (.ok (hs, cl), rest)
        else
          let q := headerStep line hs cl
          readHeaders rest [] q.1 q.2
      else (.error .ioError, rest)
    else readHeaders rest (b :: acc) hs cl

/-- `MessageParser::parse_request`. Reads the request line, requires at
least three whitespace-separated tokens, runs the header loop, rejects a
declared content length above `max_body_size` before touching the body,
then reads exactly `content_length` body bytes (an I/O error if the stream
is shorter), decoding them lossily. The second component is the suffix of
the stream left unconsumed. -/
def parse_request (stream : Bytes) (max_body_size : Nat) :
    Except ParseError Request × Bytes :=
  let rl := takeLine stream
  if utf8Valid rl.1 then
    let parts := splitWhitespace (trimAscii rl.1)
    if parts.length < 3 then (.error .invalidRequestLine, rl.2)
    else
      let method := parts.getD 0 []
      let path := parts.getD 1 []
      match readHeaders rl.2 [] [] 0 with
      | (.ok hc, rest2) =>
        if hc.2 > max_body_size then (.error .payloadTooLarge, rest2)
        else if hc.2 > 0 then
          if rest2.length < hc.2 then (.error .ioError, [])
          else
            (.ok ⟨method, path, hc.1, utf8Lossy (rest2.take hc.2)⟩, rest2.drop hc.2)
        else (.ok ⟨method, path, hc.1, []⟩, rest2)
      | (.error e, rest2) => (.error e, rest2)
  else (.error .ioError, rl.2)

/-- The `ServerConfig` struct of `main.rs`. -/
structure ServerConfig where
  hostname : Bytes
  port : Nat
  root_dir : Bytes
  error_pages : List (Nat × Bytes)
  max_body_size : Nat
  allowed_methods : List Bytes
  default_file : Bytes

/-- The external collaborators of the dispatcher: `fs::read_to_string`,
`fs::read` and the CGI runner `Command::new("python3").arg(path).output()`
(its captured stdout, or `none` on failure), each as a function of the path. -/
structure Sys where
  fsReadToString : Bytes → Option Bytes
  fsRead : Bytes → Option Bytes
  cgiRun : Bytes → Option Bytes

/-- Decimal rendering of a number, as `format!("{}")` produces. -/
def decimal (n : Nat) : Bytes := ascii (Nat.repr n)

/-- The reason-phrase table inside `send_error_response`. -/
def statusReason (code : Nat) : Bytes :=
  if code = 400 then ascii "Bad Request"
  else if code = 404 then ascii "Not Found"
  else if code = 405 then ascii "Method Not Allowed"
  else if code = 413 then ascii "Payload Too Large"
  else ascii "Internal Server Error"

/-- `send_error_response`: the bytes written to the stream for an error
status: the configured error page (or `"Error {code}"`), wrapped in
`HTTP/1.1 {code} {reason}\r\nContent-Length: {len}\r\n\r\n{page}`. -/
def send_error_response (status_code : Nat) (config : ServerConfig) : Bytes :=
  let error_page :=
    ((config.error_pages.find? (fun p => p.1 == status_code)).map (fun p => p.2)).getD
      (ascii "Error " ++ decimal status_code)
  ascii "HTTP/1.1 " ++ decimal status_code ++ [32] ++ statusReason status_code ++ crlf ++
    ascii "Content-Length: " ++ decimal error_page.length ++ crlf ++ crlf ++ error_page

/-- The extension-based content type of `handle_get`:
`_path.split('.').last()` is the segment after the last dot (the whole
path when it has no dot), mapped through the recognised extensions. -/
def extContentType (path : Bytes) : Bytes :=
  let ext := (path.reverse.takeWhile (fun b => b != 46)).reverse
  if ext = ascii "css" then ascii "text/css"
  else if ext = ascii "js" then ascii "application/javascript"
  else if ext = ascii "png" then ascii "image/png"
  else if ext = ascii "jpg" then ascii "image/jpeg"
  else if ext = ascii "jpeg" then ascii "image/jpeg"
  else if ext = ascii "webp" then ascii "image/webp"
  else ascii "text/plain"

/-- `handle_get`: CGI paths run the script and return its stdout; `/` maps
to `{root}/index.html` with type text/html; other paths are resolved as
`{root}{path}` with the extension-derived content type, falling back to a
404 with the contents of `{root}/404.html` (empty if unreadable). -/
def handle_get (sys : Sys) (_path : Bytes) (config : ServerConfig) : Bytes × Bytes :=
  if (ascii "/cgi-bin/").isPrefixOf _path then
    let script_path := config.root_dir ++ _path
    match sys.cgiRun script_path with
    | some out => (ascii "HTTP/1.1 200 OK" ++ crlf ++ ascii "Content-Type: text/plain",
        utf8Lossy out)
    | none => (ascii "HTTP/1.1 500 Internal Server Error", ascii "CGI script failed")
  else
    let filename :=
      if _path = ascii "/" then config.root_dir ++ ascii "/index.html"
      else config.root_dir ++ _path
    let content_type :=
      if _path = ascii "/" then ascii "text/html" else extContentType _path
    match sys.fsRead filename with
    | some contents =>
      (ascii "HTTP/1.1 200 OK" ++ crlf ++ ascii "Content-Type: " ++ content_type,
        utf8Lossy contents)
    | none =>
      let error_page := config.root_dir ++ ascii "/404.html"
      (ascii "HTTP/1.1 404 Not Found", (sys.fsReadToString error_page).getD [])

/-- `handle_post`: 413 when the (decoded) body exceeds `max_body_size`,
otherwise a 200 acknowledgement echoing the body. -/
def handle_post (_path body : Bytes) (config : ServerConfig) : Bytes × Bytes :=
  if body.length > config.max_body_size then
    (ascii "HTTP/1.1 413 Payload Too Large", ascii "Request body too large")
  else (ascii "HTTP/1.1 200 OK", ascii "Received data: " ++ body)

/-- `handle_delete`: a fixed 200 acknowledgement, ignoring path and config. -/
def handle_delete (_path : Bytes) (_config : ServerConfig) : Bytes × Bytes :=
  (ascii "HTTP/1.1 200 OK", ascii "Delete request received")

/-- The `match request.method.as_str()` routing block inside
`handle_connection`, producing `(status_line, response_body)`. -/
def routeRequest (sys : Sys) (config : ServerConfig) (request : Request) : Bytes × Bytes :=
  if request.method = ascii "GET" then handle_get sys request.path config
  else if request.method = ascii "POST" then handle_post request.path request.body config
  else if request.method = ascii "DELETE" then handle_delete request.path config
  else (ascii "HTTP/1.1 405 Method Not Allowed", ascii "Method not allowed")

/-- The final response composition of `handle_connection`:
`format!("{status_line}\r\nContent-Length: {}\r\n\r\n{}", contents.len(), contents)`. -/
def buildResponse (status_line contents : Bytes) : Bytes :=
  status_line ++ crlf ++ ascii "Content-Length: " ++ decimal contents.length ++ crlf ++ crlf ++
    contents

/-- `handle_connection` of `main.rs`, as the bytes it writes back on the
connection. A parse failure is answered with `send_error_response 400`; a
parsed request is checked for `Host` prefix (404) and allowed method (405),
routed, and then — before writing — the raw request path is passed to
`fs::read_to_string`, whose contents, when the read succeeds, replace the
handler's response body (`unwrap_or_else(|_| response_body)`). -/
def handle_connection (sys : Sys) (config : ServerConfig) (stream : Bytes) : Bytes :=
  match (parse_request stream config.max_body_size).1 with
  | .ok request =>
    let host := (getHeader request.headers (ascii "Host")).getD []
    if !config.hostname.isPrefixOf host then send_error_response 404 config
    else if !config.allowed_methods.contains request.method then send_error_response 405 config
    else
      let routed := routeRequest sys config request
      let contents := (sys.fsReadToString request.path).getD routed.2
      buildResponse routed.1 contents
  | .error _ => send_error_response 400 config

/-- The single `ServerConfig` constructed in `main()`. -/
def mainConfig : ServerConfig :=
  { hostname := ascii "localhost"
    port := 8080
    root_dir := ascii "src"
    error_pages := [(404, ascii "404.html"), (500, ascii "500.html"), (405, ascii "405.html")]
    max_body_size := 1048576
    allowed_methods := [ascii "GET", ascii "POST", ascii "DELETE"]
    default_file := ascii "index.html" }

/-- The `Worker` struct of `lib.rs`; the spawned thread's loop is runtime
concurrency outside the model, the structural content is the worker id. -/
structure Worker where
  _id : Nat
deriving DecidableEq

/-- `Worker::new`. -/
def Worker.new (id : Nat) : Worker := ⟨id⟩

/-- The error of `ThreadPool::new`: the `ErrorKind::InvalidInput` error
constructed when `size == 0`. -/
inductive PoolError where
  | invalidSize
deriving DecidableEq

/-- The `ThreadPool` struct of `lib.rs`; the mpsc channel is runtime
concurrency outside the model, the structural content is the worker vector. -/
structure ThreadPool where
  _workers : List Worker

/-- `ThreadPool::new`: reject `size == 0`, otherwise spawn one worker per
id in `0..size`. -/
def ThreadPool.new (size : Nat) : Except PoolError ThreadPool :=
  if size = 0 then .error .invalidSize
  else .ok ⟨(List.range size).map Worker.new⟩

/-! ### Supporting lemmas -/

theorem utf8Valid_ascii (l : Bytes) (h : ∀ b ∈ l, b < 128) : utf8Valid l = true := by
  induction l with
  | nil => rfl
  | cons b rest ih =>
    have hb : b ≤ 127 := Nat.lt_succ_iff.mp (h b (List.mem_cons_self b rest))
    have hr := ih (fun x hx => h x (List.mem_cons_of_mem _ hx))
    rcases rest with _ | ⟨c1, _ | ⟨c2, _ | ⟨c3, t⟩⟩⟩
    · rw [utf8Valid.eq_2, if_pos hb]; exact hr
    · rw [utf8Valid.eq_3, if_pos hb]; exact hr
    · rw [utf8Valid.eq_4, if_pos hb]; exact hr
    · rw [utf8Valid.eq_5, if_pos hb]; exact hr

theorem utf8Lossy_ascii (l : Bytes) (h : ∀ b ∈ l, b < 128) : utf8Lossy l = l := by
  induction l with
  | nil => rfl
  | cons b rest ih =>
    have hb : b ≤ 127 := Nat.lt_succ_iff.mp (h b (List.mem_cons_self b rest))
    have hr := ih (fun x hx => h x (List.mem_cons_of_mem _ hx))
    rcases rest with _ | ⟨c1, _ | ⟨c2, _ | ⟨c3, t⟩⟩⟩
    · rw [utf8Lossy.eq_2, if_pos hb, hr]
    · rw [utf8Lossy.eq_3, if_pos hb, hr]
    · rw [utf8Lossy.eq_4, if_pos hb, hr]
    · rw [utf8Lossy.eq_5, if_pos hb, hr]

theorem stripNewline_crlf (l : Bytes) : stripNewline (l ++ [13, 10]) = l := by
  have h1 : l ++ [13, 10] = (l ++ [13]) ++ [10] := by simp
  rw [stripNewline, h1, List.getLast?_concat]
  simp [List.dropLast_concat, List.getLast?_concat]

theorem splitOnceHV_render (k v : Bytes) (hk : hasSep k = false) :
    splitOnceHV (k ++ 58 :: 32 :: v) = some (k, v) := by
  induction k with
  | nil => simp [splitOnceHV]
  | cons b t ih =>
    rw [hasSep] at hk
    have h1 : (decide (b = 58 ∧ t.head? = some 32)) = false := by
      cases hd : (decide (b = 58 ∧ t.head? = some 32)) with
      | false => rfl
      | true => rw [hd] at hk; simp at hk
    have h2 : hasSep t = false := by
      cases ht : hasSep t with
      | false => rfl
      | true => rw [ht] at hk; simp at hk
    have h3 : ¬ (b = 58 ∧ (t ++ 58 :: 32 :: v).head? = some 32) := by
      cases t with
      | nil => simp
      | cons x t2 =>
        intro hcontra
        have := of_decide_eq_false h1
        simp only [List.cons_append, List.head?_cons] at hcontra
        exact this ⟨hcontra.1, by simp [hcontra.2]⟩
    simp only [List.cons_append, splitOnceHV, List.append_eq]
    rw [if_neg h3, ih h2, Option.map_some']

theorem readHeaders_acc (l : Bytes) (s acc : Bytes) (hs : List (Bytes × Bytes)) (cl : Nat)
    (hl : 10 ∉ l) :
    readHeaders (l ++ s) acc hs cl = readHeaders s (l.reverse ++ acc) hs cl := by
  induction l generalizing acc with
  | nil => simp
  | cons b t ih =>
    have hb : ¬ b = 10 := fun h => hl (h ▸ List.mem_cons_self b t)
    have ht : 10 ∉ t := fun h => hl (List.mem_cons_of_mem _ h)
    rw [List.cons_append, readHeaders, if_neg hb, ih (b :: acc) ht]
    simp

theorem readHeaders_blank (rest : Bytes) (hs : List (Bytes × Bytes)) (cl : Nat) :
    readHeaders (13 :: 10 :: rest) [] hs cl = (.ok (hs, cl), rest) := by
  have h := readHeaders_acc [13] (10 :: rest) [] hs cl (by decide)
  simp only [List.cons_append, List.nil_append] at h
  rw [h]
  rfl


theorem allLt_append {c : Nat} {l1 l2 : Bytes} (h1 : ∀ b ∈ l1, b < c) (h2 : ∀ b ∈ l2, b < c) :
    ∀ b ∈ l1 ++ l2, b < c := by
  intro b hb
  rcases List.mem_append.mp hb with h | h
  · exact h1 b h
  · exact h2 b h

theorem allLt_cons {c a : Nat} {l : Bytes} (ha : a < c) (h : ∀ b ∈ l, b < c) :
    ∀ b ∈ a :: l, b < c := by
  intro b hb
  rcases List.mem_cons.mp hb with h1 | h1
  · omega
  · exact h b h1

theorem notMem_append {a : Nat} {l1 l2 : Bytes} (h1 : a ∉ l1) (h2 : a ∉ l2) : a ∉ l1 ++ l2 := by
  intro h
  rcases List.mem_append.mp h with h | h
  · exact h1 h
  · exact h2 h

theorem notMem_cons {a b : Nat} {l : Bytes} (hb : a ≠ b) (h : a ∉ l) : a ∉ b :: l := by
  intro hm
  rcases List.mem_cons.mp hm with h1 | h1
  · exact hb h1
  · exact h h1

theorem readHeaders_kv (k v rest : Bytes) (hs : List (Bytes × Bytes)) (cl : Nat)
    (hkA : ∀ b ∈ k, b < 128) (hvA : ∀ b ∈ v, b < 128)
    (hk10 : 10 ∉ k) (hv10 : 10 ∉ v) (hsep : hasSep k = false) :
    readHeaders (k ++ 58 :: 32 :: (v ++ 13 :: 10 :: rest)) [] hs cl =
      readHeaders rest [] (insertHeader hs k v)
        (if eqIgnoreCase k (ascii "Content-Length") then (parseUsize v).getD 0 else cl) := by
  have hshape : k ++ 58 :: 32 :: (v ++ 13 :: 10 :: rest) =
      (k ++ 58 :: 32 :: (v ++ [13])) ++ 10 :: rest := by simp
  have hno10 : 10 ∉ k ++ 58 :: 32 :: (v ++ [13]) :=
    notMem_append hk10 (notMem_cons (by omega)
      (notMem_cons (by omega) (notMem_append hv10 (by decide))))
  rw [hshape, readHeaders_acc _ _ _ _ _ hno10, readHeaders, if_pos rfl]
  have hraw : ((k ++ 58 :: 32 :: (v ++ [13])).reverse ++ []).reverse ++ [10] =
      (k ++ 58 :: 32 :: v) ++ [13, 10] := by simp
  rw [hraw]
  have hlineA : ∀ b ∈ (k ++ 58 :: 32 :: v) ++ [13, 10], b < 128 :=
    allLt_append (allLt_append hkA (allLt_cons (by omega) (allLt_cons (by omega) hvA)))
      (by decide)
  rw [if_pos (utf8Valid_ascii _ hlineA), stripNewline_crlf]
  have hne : ((k ++ 58 :: 32 :: v).isEmpty) = false := by
    cases k <;> rfl
  rw [if_neg (by rw [hne]; exact Bool.false_ne_true)]
  rw [headerStep, splitOnceHV_render k v hsep]

theorem readHeaders_skip (line rest : Bytes) (hs : List (Bytes × Bytes)) (cl : Nat)
    (hA : ∀ b ∈ line, b < 128) (h10 : 10 ∉ line) (hne : line ≠ [])
    (hsep : splitOnceHV line = none) :
    readHeaders (line ++ 13 :: 10 :: rest) [] hs cl = readHeaders rest [] hs cl := by
  have hshape : line ++ 13 :: 10 :: rest = (line ++ [13]) ++ 10 :: rest := by simp
  have hno10 : 10 ∉ line ++ [13] := notMem_append h10 (by decide)
  rw [hshape, readHeaders_acc _ _ _ _ _ hno10, readHeaders, if_pos rfl]
  have hraw : ((line ++ [13]).reverse ++ []).reverse ++ [10] = line ++ [13, 10] := by simp
  rw [hraw]
  have hlineA : ∀ b ∈ line ++ [13, 10], b < 128 := allLt_append hA (by decide)
  rw [if_pos (utf8Valid_ascii _ hlineA), stripNewline_crlf]
  have hne2 : line.isEmpty = false := by
    cases line with
    | nil => exact absurd rfl hne
    | cons a t => rfl
  rw [if_neg (by rw [hne2]; exact Bool.false_ne_true)]
  rw [headerStep, hsep]


theorem getHeader_map_self (hs : List (Bytes × Bytes)) (k v : Bytes)
    (hany : hs.any (fun p => p.1 == k) = true) :
    getHeader (hs.map (fun p => if p.1 == k then (p.1, v) else p)) k = some v := by
  induction hs with
  | nil => simp at hany
  | cons p t ih =>
    by_cases hp : p.1 = k
    · simp only [List.map_cons, getHeader]
      rw [List.find?_cons_of_pos _ (by simp [hp])]
      simp [hp]
    · have hany2 : t.any (fun q => q.1 == k) = true := by
        rcases Bool.or_eq_true_iff.mp (by simpa only [List.any_cons] using hany) with h | h
        · exact absurd (by simpa using h) hp
        · exact h
      simp only [List.map_cons, getHeader]
      rw [List.find?_cons_of_neg _ (by simp [hp])]
      exact ih hany2

theorem getHeader_map_other (hs : List (Bytes × Bytes)) (k v k2 : Bytes) (hk : k2 ≠ k) :
    getHeader (hs.map (fun p => if p.1 == k then (p.1, v) else p)) k2 = getHeader hs k2 := by
  induction hs with
  | nil => rfl
  | cons p t ih =>
    by_cases hp : p.1 = k2
    · have hpk : ¬ p.1 = k := by rw [hp]; exact hk
      simp only [List.map_cons, getHeader]
      rw [List.find?_cons_of_pos _ (by simp [hp, hpk, hk]),
        List.find?_cons_of_pos _ (by simp [hp]), if_neg (by simp [hpk, hk])]
    · simp only [List.map_cons, getHeader]
      have hfst : (if p.1 == k then (p.1, v) else p).1 = p.1 := by
        by_cases hq : p.1 = k <;> simp [hq]
      rw [List.find?_cons_of_neg _ (by rw [hfst]; simp [hp]),
        List.find?_cons_of_neg _ (by simp [hp])]
      exact ih

theorem getHeader_append_single (hs : List (Bytes × Bytes)) (k v k2 : Bytes)
    (hnone : ∀ q ∈ hs, ¬ q.1 = k) :
    getHeader (hs ++ [(k, v)]) k2 = if k2 = k then some v else getHeader hs k2 := by
  induction hs with
  | nil =>
    by_cases hk2 : k2 = k
    · simp only [List.nil_append, getHeader, if_pos hk2]
      rw [List.find?_cons_of_pos _ (by simp [hk2])]
      rfl
    · simp only [List.nil_append, getHeader, if_neg hk2]
      rw [List.find?_cons_of_neg _ (by simp; exact fun h => hk2 h.symm)]
  | cons p t ih =>
    by_cases hp : p.1 = k2
    · have hk2 : ¬ k2 = k := by
        intro h
        exact hnone p (List.mem_cons_self p t) (by rw [hp, h])
      simp only [List.cons_append, getHeader, if_neg hk2]
      rw [List.find?_cons_of_pos _ (by simp [hp]), List.find?_cons_of_pos _ (by simp [hp])]
    · simp only [List.cons_append, getHeader]
      rw [List.find?_cons_of_neg _ (by simp [hp]), List.find?_cons_of_neg _ (by simp [hp])]
      exact ih (fun q hq => hnone q (List.mem_cons_of_mem _ hq))

theorem getHeader_insert (hs : List (Bytes × Bytes)) (k v k2 : Bytes) :
    getHeader (insertHeader hs k v) k2 = if k2 = k then some v else getHeader hs k2 := by
  by_cases hany : hs.any (fun p => p.1 == k) = true
  · rw [insertHeader, if_pos hany]
    by_cases hk2 : k2 = k
    · rw [if_pos hk2, hk2]
      exact getHeader_map_self hs k v hany
    · rw [if_neg hk2]
      exact getHeader_map_other hs k v k2 hk2
  · rw [insertHeader, if_neg hany]
    exact getHeader_append_single hs k v k2 (by
      intro q hq hcontra
      exact hany (List.any_eq_true.mpr ⟨q, hq, by simp [hcontra]⟩))


/-- Wire rendering of one header line `key: value\r\n`. -/
def renderHeader (kv : Bytes × Bytes) : Bytes := kv.1 ++ 58 :: 32 :: (kv.2 ++ [13, 10])

/-- Wire rendering of a list of header lines. -/
def renderHeaders : List (Bytes × Bytes) → Bytes
  | [] => []
  | kv :: t => renderHeader kv ++ renderHeaders t

/-- Side conditions under which a key/value pair renders to an
unambiguous header line: ASCII bytes, no embedded LF, and no `": "`
inside the key. -/
def goodKV (kv : Bytes × Bytes) : Prop :=
  (∀ b ∈ kv.1, b < 128) ∧ (∀ b ∈ kv.2, b < 128) ∧ 10 ∉ kv.1 ∧ 10 ∉ kv.2 ∧ hasSep kv.1 = false

/-- The header map accumulated by the header loop over rendered lines. -/
def buildHeaders : List (Bytes × Bytes) → List (Bytes × Bytes) → List (Bytes × Bytes)
  | [], m => m
  | kv :: t, m => buildHeaders t (insertHeader m kv.1 kv.2)

/-- The content length accumulated by the header loop over rendered lines. -/
def clFold : List (Bytes × Bytes) → Nat → Nat
  | [], c => c
  | kv :: t, c =>
    clFold t (if eqIgnoreCase kv.1 (ascii "Content-Length") then (parseUsize kv.2).getD 0 else c)

theorem readHeaders_render (hs : List (Bytes × Bytes)) (m : List (Bytes × Bytes)) (cl : Nat)
    (rest : Bytes) (hgood : ∀ kv ∈ hs, goodKV kv) :
    readHeaders (renderHeaders hs ++ 13 :: 10 :: rest) [] m cl =
      (.ok (buildHeaders hs m, clFold hs cl), rest) := by
  induction hs generalizing m cl with
  | nil => simpa using readHeaders_blank rest m cl
  | cons kv t ih =>
    obtain ⟨h1, h2, h3, h4, h5⟩ := hgood kv (List.mem_cons_self kv t)
    have hassoc : renderHeaders (kv :: t) ++ 13 :: 10 :: rest =
        kv.1 ++ 58 :: 32 :: (kv.2 ++ 13 :: 10 :: (renderHeaders t ++ 13 :: 10 :: rest)) := by
      simp [renderHeaders, renderHeader]
    rw [hassoc, readHeaders_kv kv.1 kv.2 _ m cl h1 h2 h3 h4 h5,
      ih (insertHeader m kv.1 kv.2)
        (if eqIgnoreCase kv.1 (ascii "Content-Length") then (parseUsize kv.2).getD 0 else cl)
        (fun x hx => hgood x (List.mem_cons_of_mem _ hx))]
    rfl

theorem clFold_zero (hs : List (Bytes × Bytes))
    (hbad : ∀ kv ∈ hs, eqIgnoreCase kv.1 (ascii "Content-Length") = true →
      parseUsize kv.2 = none) :
    clFold hs 0 = 0 := by
  induction hs with
  | nil => rfl
  | cons kv t ih =>
    rw [clFold]
    have h0 : (if eqIgnoreCase kv.1 (ascii "Content-Length") then (parseUsize kv.2).getD 0
        else 0) = 0 := by
      by_cases hcl : eqIgnoreCase kv.1 (ascii "Content-Length") = true
      · rw [if_pos hcl, hbad kv (List.mem_cons_self kv t) hcl]
        rfl
      · rw [if_neg hcl]
    rw [h0]
    exact ih (fun x hx => hbad x (List.mem_cons_of_mem _ hx))

theorem parse_request_with_headers (stream raw rest1 rest2 : Bytes)
    (hdrs : List (Bytes × Bytes)) (cl max : Nat)
    (hline : takeLine stream = (raw, rest1))
    (hutf : utf8Valid raw = true)
    (hparts : 3 ≤ (splitWhitespace (trimAscii raw)).length)
    (hrh : readHeaders rest1 [] [] 0 = (.ok (hdrs, cl), rest2)) :
    parse_request stream max =
      (if cl > max then (.error .payloadTooLarge, rest2)
       else if cl > 0 then
         if rest2.length < cl then (.error .ioError, [])
         else (.ok ⟨(splitWhitespace (trimAscii raw)).getD 0 [],
           (splitWhitespace (trimAscii raw)).getD 1 [], hdrs,
           utf8Lossy (rest2.take cl)⟩, rest2.drop cl)
       else (.ok ⟨(splitWhitespace (trimAscii raw)).getD 0 [],
         (splitWhitespace (trimAscii raw)).getD 1 [], hdrs, []⟩, rest2)) := by
  rw [parse_request, hline]
  simp only
  rw [if_pos hutf, if_neg (Nat.not_lt.mpr hparts), hrh]

theorem handle_connection_err (sys : Sys) (config : ServerConfig) (stream : Bytes)
    (e : ParseError) (h : (parse_request stream config.max_body_size).1 = .error e) :
    handle_connection sys config stream = send_error_response 400 config := by
  rw [handle_connection, h]

theorem handle_connection_ok (sys : Sys) (config : ServerConfig) (stream : Bytes)
    (r : Request) (h : (parse_request stream config.max_body_size).1 = .ok r)
    (hhost : config.hostname.isPrefixOf ((getHeader r.headers (ascii "Host")).getD []) = true)
    (hmeth : config.allowed_methods.contains r.method = true) :
    handle_connection sys config stream =
      buildResponse (routeRequest sys config r).1
        ((sys.fsReadToString r.path).getD (routeRequest sys config r).2) := by
  rw [handle_connection, h]
  simp only [hhost, hmeth, Bool.not_true, Bool.false_eq_true, if_false]

theorem handle_connection_host_mismatch (sys : Sys) (config : ServerConfig) (stream : Bytes)
    (r : Request) (h : (parse_request stream config.max_body_size).1 = .ok r)
    (hhost : config.hostname.isPrefixOf ((getHeader r.headers (ascii "Host")).getD []) = false) :
    handle_connection sys config stream = send_error_response 404 config := by
  rw [handle_connection, h]
  simp only [hhost, Bool.not_false, if_true]

theorem handle_connection_bad_method (sys : Sys) (config : ServerConfig) (stream : Bytes)
    (r : Request) (h : (parse_request stream config.max_body_size).1 = .ok r)
    (hhost : config.hostname.isPrefixOf ((getHeader r.headers (ascii "Host")).getD []) = true)
    (hmeth : config.allowed_methods.contains r.method = false) :
    handle_connection sys config stream = send_error_response 405 config := by
  rw [handle_connection, h]
  simp only [hhost, hmeth, Bool.not_true, Bool.not_false, Bool.false_eq_true, if_false, if_true]


/-! ### Concrete test fixtures -/

/-- An environment in which no path is readable and no CGI script runs. -/
def sysNone : Sys := ⟨fun _ => none, fun _ => none, fun _ => none⟩

/-- An environment in which exactly the raw path `/x` is readable via
`fs::read_to_string`, with contents `INTERCEPTED`. -/
def sysIntercept : Sys :=
  ⟨fun p => if p = ascii "/x" then some (ascii "INTERCEPTED") else none,
    fun _ => none, fun _ => none⟩

/-- A request whose declared `Content-Length` (2000000) exceeds
`mainConfig.max_body_size` (1048576). -/
def c1stream : Bytes :=
  ascii "GET / HTTP/1.1" ++ crlf ++ ascii "Host: localhost" ++ crlf ++
    ascii "Content-Length: 2000000" ++ crlf ++ crlf

/-! ### Claim C1 -/

/-- Claim C1, counterexample to the claim as stated: for a request whose
declared `Content-Length` exceeds `max_body_size`, `parse_request` does
return the payload-too-large error, but `handle_connection` answers with
`send_error_response 400` — not with status 413 — because its `Err` arm
maps every parse error to 400. -/
theorem C1_counterexample :
    (parse_request c1stream mainConfig.max_body_size).1 = .error .payloadTooLarge ∧
    handle_connection sysNone mainConfig c1stream = send_error_response 400 mainConfig ∧
    handle_connection sysNone mainConfig c1stream ≠ send_error_response 413 mainConfig :=
  ⟨rfl, rfl, by decide⟩

/-- Claim C1 (amended): for every request whose request line is well formed
and whose header section parses with a declared content length above
`max_body_size`, `parse_request` fails with the payload-too-large error
while leaving the post-header remainder `rest2` unconsumed (no body byte is
read), and `handle_connection` responds with status 400 (all parse errors
are mapped to `send_error_response 400`), not 413. -/
theorem C1_payload_too_large (sys : Sys) (config : ServerConfig)
    (stream raw rest1 rest2 : Bytes) (hdrs : List (Bytes × Bytes)) (cl : Nat)
    (hline : takeLine stream = (raw, rest1))
    (hutf : utf8Valid raw = true)
    (hparts : 3 ≤ (splitWhitespace (trimAscii raw)).length)
    (hrh : readHeaders rest1 [] [] 0 = (.ok (hdrs, cl), rest2))
    (hbig : config.max_body_size < cl) :
    parse_request stream config.max_body_size = (.error .payloadTooLarge, rest2) ∧
    handle_connection sys config stream = send_error_response 400 config := by
  have hp := parse_request_with_headers stream raw rest1 rest2 hdrs cl
    config.max_body_size hline hutf hparts hrh
  rw [if_pos (by omega : cl > config.max_body_size)] at hp
  exact ⟨hp, handle_connection_err sys config stream .payloadTooLarge (by rw [hp])⟩

/-- Claim C1, witness: the amended theorem applied to `c1stream` under the
configuration constructed in `main()`. -/
theorem C1_witness :
    parse_request c1stream mainConfig.max_body_size = (.error .payloadTooLarge, []) ∧
    handle_connection sysNone mainConfig c1stream = send_error_response 400 mainConfig :=
  C1_payload_too_large sysNone mainConfig c1stream
    (ascii "GET / HTTP/1.1" ++ [13, 10])
    (ascii "Host: localhost" ++ crlf ++ ascii "Content-Length: 2000000" ++ crlf ++ crlf)
    [] [(ascii "Host", ascii "localhost"), (ascii "Content-Length", ascii "2000000")] 2000000
    rfl (by decide) (by decide) rfl (by decide)


/-! ### Claim C2 -/

/-- A parsed request with a readable raw path that nevertheless fails the
`Host` check. -/
def c2stream : Bytes :=
  ascii "GET /x HTTP/1.1" ++ crlf ++ ascii "Host: evil.example" ++ crlf ++ crlf

/-- Claim C2, counterexample to the claim as stated: this request parses
successfully and its raw path `/x` is readable under `sysIntercept`, yet
`handle_connection` never attempts the `fs::read_to_string` override — the
response is the 404 error page, identical to the response under an
environment where nothing is readable — because the `Host` check fails
before the routed-response composition is reached. -/
theorem C2_counterexample :
    (parse_request c2stream mainConfig.max_body_size).1 =
      .ok ⟨ascii "GET", ascii "/x", [(ascii "Host", ascii "evil.example")], []⟩ ∧
    sysIntercept.fsReadToString (ascii "/x") = some (ascii "INTERCEPTED") ∧
    handle_connection sysIntercept mainConfig c2stream = send_error_response 404 mainConfig ∧
    handle_connection sysIntercept mainConfig c2stream =
      handle_connection sysNone mainConfig c2stream :=
  ⟨rfl, rfl, rfl, rfl⟩

/-- Claim C2 (amended): for every successfully parsed request that passes
the `Host` and allowed-method checks, `handle_connection` composes the
response from `fs::read_to_string` applied to the raw, unvalidated request
path (not joined with the configured root directory): when that read
succeeds its contents replace the route handler's response body, and the
handler's body is written only when the raw path is not a readable file. -/
theorem C2_raw_path_read (sys : Sys) (config : ServerConfig) (stream : Bytes) (r : Request)
    (hok : (parse_request stream config.max_body_size).1 = .ok r)
    (hhost : config.hostname.isPrefixOf ((getHeader r.headers (ascii "Host")).getD []) = true)
    (hmeth : config.allowed_methods.contains r.method = true) :
    handle_connection sys config stream =
      buildResponse (routeRequest sys config r).1
        ((sys.fsReadToString r.path).getD (routeRequest sys config r).2) :=
  handle_connection_ok sys config stream r hok hhost hmeth

/-- A successfully parsed request that passes host and method checks, whose
raw path `/x` is readable under `sysIntercept`. -/
def c2okstream : Bytes :=
  ascii "GET /x HTTP/1.1" ++ crlf ++ ascii "Host: localhost" ++ crlf ++ crlf

/-- Claim C2, witness: the amended theorem applied to a routed GET request
whose raw path is readable. -/
theorem C2_witness :
    handle_connection sysIntercept mainConfig c2okstream =
      buildResponse
        (routeRequest sysIntercept mainConfig
          ⟨ascii "GET", ascii "/x", [(ascii "Host", ascii "localhost")], []⟩).1
        ((sysIntercept.fsReadToString (ascii "/x")).getD
          (routeRequest sysIntercept mainConfig
            ⟨ascii "GET", ascii "/x", [(ascii "Host", ascii "localhost")], []⟩).2) :=
  C2_raw_path_read sysIntercept mainConfig c2okstream
    ⟨ascii "GET", ascii "/x", [(ascii "Host", ascii "localhost")], []⟩ rfl (by decide) (by decide)

/-! ### Claim C3 -/

/-- Claim C3: for every well-formed request whose header section declares
`Content-Length = cl` with `0 < cl ≤ max`, the parser reads exactly `cl`
body bytes — the unconsumed remainder is `rest2.drop cl` — and returns as
body the lossy decoding of exactly those bytes (the identity whenever they
are ASCII); if the stream ends before `cl` body bytes arrive, it returns
the I/O error instead of a truncated body. -/
theorem C3_exact_body (stream raw rest1 rest2 : Bytes) (hdrs : List (Bytes × Bytes))
    (cl max : Nat)
    (hline : takeLine stream = (raw, rest1))
    (hutf : utf8Valid raw = true)
    (hparts : 3 ≤ (splitWhitespace (trimAscii raw)).length)
    (hrh : readHeaders rest1 [] [] 0 = (.ok (hdrs, cl), rest2))
    (hpos : 0 < cl) (hle : cl ≤ max) :
    (cl ≤ rest2.length →
      parse_request stream max =
        (.ok ⟨(splitWhitespace (trimAscii raw)).getD 0 [],
          (splitWhitespace (trimAscii raw)).getD 1 [], hdrs,
          utf8Lossy (rest2.take cl)⟩, rest2.drop cl)) ∧
    ((∀ b ∈ rest2.take cl, b < 128) → utf8Lossy (rest2.take cl) = rest2.take cl) ∧
    (rest2.length < cl → parse_request stream max = (.error .ioError, [])) := by
  have hp := parse_request_with_headers stream raw rest1 rest2 hdrs cl max hline hutf hparts hrh
  rw [if_neg (by omega : ¬ cl > max), if_pos (by omega : cl > 0)] at hp
  refine ⟨fun hlen => ?_, utf8Lossy_ascii _, fun hshort => ?_⟩
  · rw [hp, if_neg (by omega)]
  · rw [hp, if_pos hshort]

/-- A POST with `Content-Length: 5` and exactly five body bytes. -/
def c3stream : Bytes :=
  ascii "POST /a HTTP/1.1" ++ crlf ++ ascii "Content-Length: 5" ++ crlf ++ crlf ++ ascii "hello"

/-- The same POST with the stream ending after only three body bytes. -/
def c3short : Bytes :=
  ascii "POST /a HTTP/1.1" ++ crlf ++ ascii "Content-Length: 5" ++ crlf ++ crlf ++ ascii "hel"

/-- Claim C3, witness: on `c3stream` the parser returns exactly the five
body bytes sent; on the truncated `c3short` it returns the I/O error. -/
theorem C3_witness :
    parse_request c3stream 1048576 =
      (.ok ⟨ascii "POST", ascii "/a", [(ascii "Content-Length", ascii "5")], ascii "hello"⟩,
        []) ∧
    utf8Lossy (ascii "hello") = ascii "hello" ∧
    parse_request c3short 1048576 = (.error .ioError, []) := by
  have T := C3_exact_body c3stream (ascii "POST /a HTTP/1.1" ++ [13, 10])
    (ascii "Content-Length: 5" ++ crlf ++ crlf ++ ascii "hello") (ascii "hello")
    [(ascii "Content-Length", ascii "5")] 5 1048576 rfl (by decide) (by decide) rfl
    (by decide) (by decide)
  have T2 := C3_exact_body c3short (ascii "POST /a HTTP/1.1" ++ [13, 10])
    (ascii "Content-Length: 5" ++ crlf ++ crlf ++ ascii "hel") (ascii "hel")
    [(ascii "Content-Length", ascii "5")] 5 1048576 rfl (by decide) (by decide) rfl
    (by decide) (by decide)
  exact ⟨T.1 (by decide), T.2.1 (by decide), T2.2.2 (by decide)⟩

/-! ### Claim C4 -/

/-- Claim C4: for every request whose first line, after trimming, splits
into fewer than three whitespace-separated tokens, `parse_request` fails
with the malformed-request-line error (`Invalid request line`) and
`handle_connection` responds with status 400. -/
theorem C4_malformed (sys : Sys) (config : ServerConfig) (stream raw rest1 : Bytes) (max : Nat)
    (hline : takeLine stream = (raw, rest1))
    (hutf : utf8Valid raw = true)
    (hfew : (splitWhitespace (trimAscii raw)).length < 3) :
    parse_request stream max = (.error .invalidRequestLine, rest1) ∧
    handle_connection sys config stream = send_error_response 400 config := by
  have key : ∀ m : Nat, parse_request stream m = (.error .invalidRequestLine, rest1) := by
    intro m
    rw [parse_request, hline]
    simp only
    rw [if_pos hutf, if_pos hfew]
  exact ⟨key max, handle_connection_err sys config stream .invalidRequestLine
    (by rw [key config.max_body_size])⟩

/-- A request line with only two tokens. -/
def c4stream : Bytes := ascii "GET /" ++ crlf ++ crlf

/-- Claim C4, witness: the theorem applied to the two-token request line
`GET /`. -/
theorem C4_witness :
    parse_request c4stream mainConfig.max_body_size = (.error .invalidRequestLine, [13, 10]) ∧
    handle_connection sysNone mainConfig c4stream = send_error_response 400 mainConfig :=
  C4_malformed sysNone mainConfig c4stream (ascii "GET /" ++ [13, 10]) [13, 10]
    mainConfig.max_body_size rfl (by decide) (by decide)


/-! ### Claim C5 -/

/-- Claim C5: for every successfully parsed request, `handle_connection`
extracts the `Host` header (the empty string when absent) and responds 404
whenever that value does not start with `config.hostname`, regardless of
the request's method or path. -/
theorem C5_host_mismatch (sys : Sys) (config : ServerConfig) (stream : Bytes) (r : Request)
    (hok : (parse_request stream config.max_body_size).1 = .ok r)
    (hhost : config.hostname.isPrefixOf
      ((getHeader r.headers (ascii "Host")).getD []) = false) :
    handle_connection sys config stream = send_error_response 404 config :=
  handle_connection_host_mismatch sys config stream r hok hhost

/-- A parsed DELETE whose `Host` header does not start with `localhost`. -/
def c5stream : Bytes :=
  ascii "DELETE /y HTTP/1.1" ++ crlf ++ ascii "Host: other.example" ++ crlf ++ crlf

/-- Claim C5, witness. -/
theorem C5_witness :
    handle_connection sysNone mainConfig c5stream = send_error_response 404 mainConfig :=
  C5_host_mismatch sysNone mainConfig c5stream
    ⟨ascii "DELETE", ascii "/y", [(ascii "Host", ascii "other.example")], []⟩ rfl (by decide)

/-! ### Claim C6 -/

/-- Claim C6: for every successfully parsed request whose `Host` check
passes, if the method is not a member of `config.allowed_methods` then
`handle_connection` responds with status 405. -/
theorem C6_method_not_allowed (sys : Sys) (config : ServerConfig) (stream : Bytes) (r : Request)
    (hok : (parse_request stream config.max_body_size).1 = .ok r)
    (hhost : config.hostname.isPrefixOf
      ((getHeader r.headers (ascii "Host")).getD []) = true)
    (hmeth : config.allowed_methods.contains r.method = false) :
    handle_connection sys config stream = send_error_response 405 config :=
  handle_connection_bad_method sys config stream r hok hhost hmeth

/-- A request with a method (`PATCH`) outside `mainConfig.allowed_methods`. -/
def c6stream : Bytes :=
  ascii "PATCH / HTTP/1.1" ++ crlf ++ ascii "Host: localhost" ++ crlf ++ crlf

/-- Claim C6, witness. -/
theorem C6_witness :
    handle_connection sysNone mainConfig c6stream = send_error_response 405 mainConfig :=
  C6_method_not_allowed sysNone mainConfig c6stream
    ⟨ascii "PATCH", ascii "/", [(ascii "Host", ascii "localhost")], []⟩ rfl (by decide) (by decide)

/-! ### Claim C7 -/

/-- A well-formed DELETE for path `/x` that passes host and method checks. -/
def c7stream : Bytes :=
  ascii "DELETE /x HTTP/1.1" ++ crlf ++ ascii "Host: localhost" ++ crlf ++ crlf

/-- Claim C7, counterexample to the claim as stated: this well-formed
DELETE passes host and method validation, yet when the raw path `/x` is a
readable file the written body is the file's contents, not the fixed
acknowledgement — the `fs::read_to_string` override of `handle_connection`
replaces `handle_delete`'s body. -/
theorem C7_counterexample :
    (parse_request c7stream mainConfig.max_body_size).1 =
      .ok ⟨ascii "DELETE", ascii "/x", [(ascii "Host", ascii "localhost")], []⟩ ∧
    handle_connection sysIntercept mainConfig c7stream =
      buildResponse (ascii "HTTP/1.1 200 OK") (ascii "INTERCEPTED") ∧
    handle_connection sysIntercept mainConfig c7stream ≠
      buildResponse (ascii "HTTP/1.1 200 OK") (ascii "Delete request received") :=
  ⟨rfl, rfl, by decide⟩

/-- Claim C7 (amended): for every well-formed DELETE that passes host and
method validation, the status line is always `HTTP/1.1 200 OK` and the body
is the fixed acknowledgement `Delete request received` — independent of the
path — unless `fs::read_to_string` on the raw request path succeeds, in
which case that file's contents are written instead. -/
theorem C7_delete_ack (sys : Sys) (config : ServerConfig) (stream : Bytes) (r : Request)
    (hok : (parse_request stream config.max_body_size).1 = .ok r)
    (hm : r.method = ascii "DELETE")
    (hhost : config.hostname.isPrefixOf
      ((getHeader r.headers (ascii "Host")).getD []) = true)
    (hmeth : config.allowed_methods.contains r.method = true) :
    handle_connection sys config stream =
      buildResponse (ascii "HTTP/1.1 200 OK")
        ((sys.fsReadToString r.path).getD (ascii "Delete request received")) := by
  have hg : ¬ r.method = ascii "GET" := by rw [hm]; decide
  have hpst : ¬ r.method = ascii "POST" := by rw [hm]; decide
  have h := handle_connection_ok sys config stream r hok hhost hmeth
  rw [routeRequest, if_neg hg, if_neg hpst, if_pos hm] at h
  exact h

/-- Claim C7, witness: with no readable file, the DELETE response is the
fixed acknowledgement. -/
theorem C7_witness :
    handle_connection sysNone mainConfig c7stream =
      buildResponse (ascii "HTTP/1.1 200 OK")
        ((sysNone.fsReadToString (ascii "/x")).getD (ascii "Delete request received")) :=
  C7_delete_ack sysNone mainConfig c7stream
    ⟨ascii "DELETE", ascii "/x", [(ascii "Host", ascii "localhost")], []⟩
    rfl rfl (by decide) (by decide)


/-! ### Claim C8 -/

/-- Claim C8: for every well-formed request whose header section contains a
`Content-Length` header (matched case-insensitively) and whose
`Content-Length` values all fail to parse as an unsigned integer, the
content length is treated as 0 and the parser does not fail on that value:
the request is accepted with an empty body and the bytes after the blank
line are left unread. -/
theorem C8_unparsable_content_length (stream raw rest1 rest : Bytes)
    (hs : List (Bytes × Bytes)) (max : Nat)
    (hline : takeLine stream = (raw, rest1))
    (hutf : utf8Valid raw = true)
    (hparts : 3 ≤ (splitWhitespace (trimAscii raw)).length)
    (hrest : rest1 = renderHeaders hs ++ 13 :: 10 :: rest)
    (hgood : ∀ kv ∈ hs, goodKV kv)
    (_hmem : ∃ kv ∈ hs, eqIgnoreCase kv.1 (ascii "Content-Length") = true)
    (hbad : ∀ kv ∈ hs, eqIgnoreCase kv.1 (ascii "Content-Length") = true →
      parseUsize kv.2 = none) :
    parse_request stream max =
      (.ok ⟨(splitWhitespace (trimAscii raw)).getD 0 [],
        (splitWhitespace (trimAscii raw)).getD 1 [], buildHeaders hs [], []⟩, rest) := by
  have hrh : readHeaders rest1 [] [] 0 = (.ok (buildHeaders hs [], 0), rest) := by
    rw [hrest, readHeaders_render hs [] 0 rest hgood, clFold_zero hs hbad]
  have hp := parse_request_with_headers stream raw rest1 rest (buildHeaders hs []) 0 max
    hline hutf hparts hrh
  rw [if_neg (by omega), if_neg (by omega)] at hp
  exact hp

instance (kv : Bytes × Bytes) : Decidable (goodKV kv) :=
  inferInstanceAs (Decidable ((∀ b ∈ kv.1, b < 128) ∧ (∀ b ∈ kv.2, b < 128) ∧
    10 ∉ kv.1 ∧ 10 ∉ kv.2 ∧ hasSep kv.1 = false))

/-- A request declaring `Content-Length: abc` (unparsable), followed by
stray bytes that must not be consumed as a body. -/
def c8stream : Bytes :=
  ascii "GET / HTTP/1.1" ++ crlf ++ ascii "Content-Length: abc" ++ crlf ++
    ascii "Host: localhost" ++ crlf ++ crlf ++ ascii "LEFTOVER"

/-- Claim C8, witness. -/
theorem C8_witness :
    parse_request c8stream 1048576 =
      (.ok ⟨ascii "GET", ascii "/",
        buildHeaders [(ascii "Content-Length", ascii "abc"), (ascii "Host", ascii "localhost")]
          [], []⟩, ascii "LEFTOVER") := by
  have T := C8_unparsable_content_length c8stream (ascii "GET / HTTP/1.1" ++ [13, 10])
    (ascii "Content-Length: abc" ++ crlf ++ ascii "Host: localhost" ++ crlf ++ crlf ++
      ascii "LEFTOVER")
    (ascii "LEFTOVER")
    [(ascii "Content-Length", ascii "abc"), (ascii "Host", ascii "localhost")] 1048576
    rfl (by decide) (by decide) rfl (by decide) (by decide) (by decide)
  exact T

/-! ### Claim C9 -/

/-- Claim C9: in the header loop, (1) a non-empty line lacking the `": "`
separator is silently skipped — the header map, content length and error
status are unchanged; (2) header keys are stored with exact case and a
re-insert of the same key overwrites its value, so the last occurrence
wins; (3) lookups of a different key — including a different casing of the
same word — are unaffected by the insert, i.e. the map is case-sensitive;
and (4) case-insensitive matching applies only to the `Content-Length`
lookup: a line whose key case-insensitively equals `Content-Length` resets
the content length while its key is stored with the exact case received. -/
theorem C9_header_lines (line k v k2 rest : Bytes) (hs : List (Bytes × Bytes)) (cl : Nat) :
    ((∀ b ∈ line, b < 128) → 10 ∉ line → line ≠ [] → splitOnceHV line = none →
      readHeaders (line ++ 13 :: 10 :: rest) [] hs cl = readHeaders rest [] hs cl) ∧
    getHeader (insertHeader hs k v) k = some v ∧
    (k2 ≠ k → getHeader (insertHeader hs k v) k2 = getHeader hs k2) ∧
    ((∀ b ∈ k, b < 128) → (∀ b ∈ v, b < 128) → 10 ∉ k → 10 ∉ v → hasSep k = false →
      readHeaders (k ++ 58 :: 32 :: (v ++ 13 :: 10 :: rest)) [] hs cl =
        readHeaders rest [] (insertHeader hs k v)
          (if eqIgnoreCase k (ascii "Content-Length") then (parseUsize v).getD 0 else cl)) := by
  refine ⟨fun hA h10 hne hsep => readHeaders_skip line rest hs cl hA h10 hne hsep,
    ?_, fun hk => ?_,
    fun hkA hvA hk10 hv10 hsep => readHeaders_kv k v rest hs cl hkA hvA hk10 hv10 hsep⟩
  · rw [getHeader_insert, if_pos rfl]
  · rw [getHeader_insert, if_neg hk]

/-- Claim C9, witness: a separator-less line is skipped; an upper-cased
`CONTENT-LENGTH` key is stored exactly as received (the exact-case lookup
finds it, the canonically-cased lookup does not) while still resetting the
content length through the case-insensitive match. -/
theorem C9_witness :
    readHeaders (ascii "garbage line" ++ 13 :: 10 :: []) [] [] 0 = readHeaders [] [] [] 0 ∧
    getHeader (insertHeader [] (ascii "CONTENT-LENGTH") (ascii "7"))
      (ascii "CONTENT-LENGTH") = some (ascii "7") ∧
    getHeader (insertHeader [] (ascii "CONTENT-LENGTH") (ascii "7"))
      (ascii "Content-Length") = getHeader [] (ascii "Content-Length") ∧
    readHeaders (ascii "CONTENT-LENGTH" ++ 58 :: 32 :: (ascii "7" ++ 13 :: 10 :: [])) [] [] 0 =
      readHeaders [] [] (insertHeader [] (ascii "CONTENT-LENGTH") (ascii "7"))
        (if eqIgnoreCase (ascii "CONTENT-LENGTH") (ascii "Content-Length") then
          (parseUsize (ascii "7")).getD 0 else 0) := by
  have T := C9_header_lines (ascii "garbage line") (ascii "CONTENT-LENGTH") (ascii "7")
    (ascii "Content-Length") [] [] 0
  exact ⟨T.1 (by decide) (by decide) (by decide) (by decide), T.2.1, T.2.2.1 (by decide),
    T.2.2.2 (by decide) (by decide) (by decide) (by decide) (by decide)⟩

/-! ### Claim C10 -/

/-- Claim C10: `ThreadPool::new size` returns an error if and only if
`size` is zero, and for every positive `size` it returns a pool whose
worker vector has exactly `size` workers. -/
theorem C10_thread_pool (size : Nat) :
    (ThreadPool.new size = .error .invalidSize ↔ size = 0) ∧
    (0 < size → ∃ p, ThreadPool.new size = .ok p ∧ p._workers.length = size) := by
  constructor
  · constructor
    · intro h
      by_contra hne
      rw [ThreadPool.new, if_neg hne] at h
      exact Except.noConfusion h
    · intro h
      rw [ThreadPool.new, if_pos h]
  · intro h
    refine ⟨⟨(List.range size).map Worker.new⟩, ?_, by simp⟩
    rw [ThreadPool.new, if_neg (by omega)]

/-- Claim C10, witness: size 0 is rejected; size 4 — the size used by
`main()` — yields exactly four workers. -/
theorem C10_witness :
    (ThreadPool.new 0 = .error .invalidSize ↔ (0 : Nat) = 0) ∧
    (∃ p, ThreadPool.new 4 = .ok p ∧ p._workers.length = 4) :=
  ⟨(C10_thread_pool 0).1, (C10_thread_pool 4).2 (by decide)⟩


end RustServer
